import Mathlib

/-!
Shallow embedding of the invertible-protocol conformance engine from
`lib/Sema/TypeCheckInvertible.cpp`.

The embedding models:
  * the three-state inverse/positive marking of a nominal declaration
    (`InverseMarking`, from `swift/AST/InverseMarking.h` as used here);
  * the storage visitor `StorageVisitor::visit`;
  * the structural validator `checkCopyableConformance` with its inner
    `HasNoncopyable` visitor;
  * the diagnostic helpers `addConformanceFixIt` and
    `tryEmitContainmentFixits`;
  * the grant synthesizer `deriveConformanceForInvertible` with its local
    lambdas `generateConformance` and `generateConditionalConformance`.

External collaborators (the conformance query `Type::isNoncopyable`,
the generic-signature builder, the AST lookup tables) are passed in as
parameters, mirroring the services of the surrounding compiler.
Assertion failures and `llvm_unreachable` are modelled as explicit
`fatal` outcomes.  Source locations are natural numbers; object identity
(of conformances and synthesized extensions) is a natural-number id drawn
from a counter threaded through the synthesizer's state.
-/

set_option autoImplicit false

namespace Invertible

/-- Kinds of known protocols relevant here: `Copyable` is the invertible
one; `Sendable` stands for any non-invertible known protocol. -/
inductive KnownProtocolKind where
  | Copyable
  | Sendable
deriving DecidableEq, Repr

/-- The invertible protocols (`getInvertibleProtocolKind` maps into this). -/
inductive InvertibleProtocolKind where
  | Copyable
deriving DecidableEq, Repr

/-- Mirrors `getInvertibleProtocolKind`: only `Copyable` is invertible. -/
def getInvertibleProtocolKind : KnownProtocolKind → Option InvertibleProtocolKind
  | .Copyable => some .Copyable
  | .Sendable => none

/-- Mirrors `getProtocolName`. -/
def getProtocolName : KnownProtocolKind → String
  | .Copyable => "Copyable"
  | .Sendable => "Sendable"

/-- The three marking states of `InverseMarking::Kind`. -/
inductive MarkKind where
  | none
  | inferred
  | explicit
deriving DecidableEq, Repr

/-- One marking value: a kind together with its source location
(`InverseMarking::Mark`, whose `getLoc` may be invalid). -/
structure InvMark where
  kind : MarkKind
  loc : Option Nat
deriving DecidableEq, Repr

/-- The `InverseMarking` of a nominal for an invertible protocol:
independent positive and inverse marks. -/
structure InverseMarking where
  positive : InvMark
  inverse : InvMark
deriving DecidableEq, Repr

/-- The closed set of nominal declaration kinds dispatched on by the
storage visitor and validator (`StructDecl`, `ClassDecl`, `EnumDecl`,
`ProtocolDecl`, `BuiltinTupleDecl`). -/
inductive DeclKind where
  | structDecl
  | classDecl
  | enumDecl
  | protocolDecl
  | builtinTupleDecl
deriving DecidableEq, Repr

/-- Types, as far as this engine inspects them: generic-parameter
archetypes (identified by the parameter declaration's id), references to
nominal declarations, opaque leaf types, reference-storage wrappers
(`weak`/`unowned`), l-value wrappers, and the error type. -/
inductive Ty where
  | param (paramId : Nat)
  | nominalTy (declId : Nat)
  | base (name : String)
  | refStorage (t : Ty)
  | lvalue (t : Ty)
  | errorTy
deriving DecidableEq, Repr

/-- Mirrors `Type::hasError`: the type recursively contains an error type. -/
def Ty.hasError : Ty → Bool
  | .errorTy => true
  | .refStorage t => t.hasError
  | .lvalue t => t.hasError
  | _ => false

/-- Mirrors `Type::getRValueType`: peel one l-value wrapper, if present. -/
def Ty.getRValueType : Ty → Ty
  | .lvalue t => t
  | t => t

/-- Mirrors `Type::getReferenceStorageReferent`: peel one reference-storage
wrapper, if present. -/
def Ty.getReferenceStorageReferent : Ty → Ty
  | .refStorage t => t
  | t => t

/-- Mirrors `Type::getAnyNominal`: the nominal declaration a type resolves
to, when it is directly a nominal type. -/
def Ty.getAnyNominal : Ty → Option Nat
  | .nominalTy d => some d
  | _ => none

/-- A declaration context, exposing `mapTypeIntoContext`'s action on the
generic parameters in scope (interface parameter id to contextual type). -/
structure DeclContext where
  subst : Nat → Ty

/-- Mirrors `DeclContext::mapTypeIntoContext`: substitute the context's
archetypes for generic parameters, structurally through wrappers. -/
def mapTypeIntoContext (dc : DeclContext) : Ty → Ty
  | .param i => dc.subst i
  | .refStorage t => .refStorage (mapTypeIntoContext dc t)
  | .lvalue t => .lvalue (mapTypeIntoContext dc t)
  | .nominalTy d => .nominalTy d
  | .base s => .base s
  | .errorTy => .errorTy

/-- A stored property (`VarDecl`) with its interface type. -/
structure VarDecl where
  name : String
  interfaceType : Ty
deriving DecidableEq, Repr

/-- An enum element (`EnumElementDecl`): its name, whether it has
associated values, and (when it does) its argument interface type. -/
structure EnumElementDecl where
  name : String
  hasAssociatedValues : Bool
  argumentInterfaceType : Ty
deriving DecidableEq, Repr

/-- An enum case declaration (`EnumCaseDecl`), a clause grouping elements. -/
structure EnumCaseDecl where
  elements : List EnumElementDecl
deriving DecidableEq, Repr

/-- A requirement kind; only conformance requirements are produced here. -/
inductive RequirementKind where
  | conformance
  | superclass
  | sameType
deriving DecidableEq, Repr

/-- A generic requirement `{kind, subject parameter, constraint protocol}`
as pushed by `generateConditionalConformance`. -/
structure Requirement where
  kind : RequirementKind
  subject : Nat
  constraintProto : String
deriving DecidableEq, Repr

/-- A generic signature: parameter ids and requirements. -/
structure GenericSig where
  params : List Nat
  reqs : List Requirement
deriving DecidableEq, Repr

/-- A nominal type declaration, with everything this engine reads off it. -/
structure NominalTypeDecl where
  id : Nat
  kind : DeclKind
  name : String
  moduleId : Nat
  loc : Option Nat
  bracesStart : Nat
  inheritedEntries : List String
  inheritedEndLoc : Nat
  storedProperties : List VarDecl
  cases : List EnumCaseDecl
  genericSig : GenericSig
  marking : InverseMarking
  moduleScopeIsFileUnit : Bool
deriving DecidableEq, Repr

/-- A generic parameter declaration's data used by the fix-it tracer:
the module it belongs to and its location. -/
structure GenericParamInfo where
  moduleId : Nat
  loc : Nat
deriving DecidableEq, Repr

/-- Lookup tables standing for the surrounding AST: resolving a nominal
declaration id and a generic parameter declaration id. -/
structure World where
  decls : Nat → Option NominalTypeDecl
  genericParams : Nat → Option GenericParamInfo

/-- A fix-it edit: location, inserted text, and whether the insertion is
`fixItInsertAfter` rather than `fixItInsert`. -/
structure FixIt where
  loc : Nat
  text : String
  after : Bool
deriving DecidableEq, Repr

/-- The diagnostics this file can emit, with their payloads. -/
inductive Diag where
  | addInverse (declId : Nat) (protoName : String) (fixit : FixIt)
  | noteInversePreventingConformance (paramId : Nat) (protoName : String)
  | noteInversePreventingConformanceImplicit (loc : Nat) (declId : Nat) (protoName : String)
  | noteInversePreventingConformanceExplicit (loc : Nat) (declId : Nat) (protoName : String)
  | noncopyableTypeMemberInCopyable (ty : Ty) (isEnum : Bool) (memberName : String) (declId : Nat)
  | noncopyableButCopyable (loc : Option Nat) (declId : Nat)
deriving DecidableEq, Repr

/-- Mirrors `addConformanceFixIt`: if the inheritance clause is empty,
insert ": [~]Proto" at the start of the braces, else append ", [~]Proto"
after the end of the clause. -/
def addConformanceFixIt (nominal : NominalTypeDecl) (proto : KnownProtocolKind)
    (inverse : Bool) : FixIt :=
  if nominal.inheritedEntries.isEmpty then
    { loc := nominal.bracesStart
      text := ": " ++ (if inverse then "~" else "") ++ getProtocolName proto
      after := false }
  else
    { loc := nominal.inheritedEndLoc
      text := ", " ++ (if inverse then "~" else "") ++ getProtocolName proto
      after := true }

/-- Outcome of the diagnostic tracer: emitted diagnostics, or an assertion
failure (with whatever was emitted before it). -/
inductive TraceRes where
  | ok (diags : List Diag)
  | fatal (diags : List Diag)
deriving DecidableEq, Repr

/-- Mirrors `tryEmitContainmentFixits`.  It first emits the universal
"add the inverse to the enclosing type" diagnostic with its fix-it; if the
offending type is a generic-parameter archetype, it may point at the
parameter declaration and returns; otherwise, for `Copyable`, if the type
resolves to a nominal declaration with a known source location it reports
that declaration's own inverse marking, asserting (fatal here) when that
marking is `None` or carries no location. -/
def tryEmitContainmentFixits (world : World) (enclosingNom : NominalTypeDecl)
    (nonConformingTy : Ty) (kp : KnownProtocolKind) : TraceRes :=
  let d1 : Diag := .addInverse enclosingNom.id (getProtocolName kp)
      (addConformanceFixIt enclosingNom kp true)
  match nonConformingTy with
  | .param i =>
    match world.genericParams i with
    | some pinfo =>
      if pinfo.moduleId = enclosingNom.moduleId then
        .ok [d1, .noteInversePreventingConformance i (getProtocolName kp)]
      else
        .ok [d1]
    | none => .ok [d1]
  | ty =>
    if kp = KnownProtocolKind.Copyable then
      match ty.getAnyNominal with
      | some did =>
        match world.decls did with
        | some decl =>
          match decl.loc with
          | some _ =>
            match decl.marking.inverse.kind with
            | .none => .fatal [d1]
            | .inferred =>
              match decl.marking.inverse.loc with
              | some l =>
                .ok [d1, .noteInversePreventingConformanceImplicit l did (getProtocolName kp)]
              | none => .fatal [d1]
            | .explicit =>
              match decl.marking.inverse.loc with
              | some l =>
                .ok [d1, .noteInversePreventingConformanceExplicit l did (getProtocolName kp)]
              | none => .fatal [d1]
          | none => .ok [d1]
        | none => .ok [d1]
      | none => .ok [d1]
    else
      .ok [d1]

/-- The state threaded through the storage visitor's callbacks: diagnostics
emitted so far and whether an assertion failure occurred. -/
structure VisitSt where
  diags : List Diag
  fatalFlag : Bool
deriving DecidableEq, Repr

/-- A per-property callback of the storage visitor
(`operator()(VarDecl *, Type)`), threading `VisitSt`. -/
abbrev PropCallback := VarDecl → Ty → VisitSt → Bool × VisitSt

/-- A per-element callback of the storage visitor
(`operator()(EnumElementDecl *, Type)`), threading `VisitSt`. -/
abbrev ElemCallback := EnumElementDecl → Ty → VisitSt → Bool × VisitSt

/-- The substituted type a stored property is presented with, exactly as
computed in `StorageVisitor::visit`:
`dc->mapTypeIntoContext(ty)->getRValueType()->getReferenceStorageReferent()`. -/
def substitutedPropertyType (dc : DeclContext) (p : VarDecl) : Ty :=
  ((mapTypeIntoContext dc p.interfaceType).getRValueType).getReferenceStorageReferent

/-- The substituted type an enum element's payload is presented with,
exactly as computed in `StorageVisitor::visit`:
`dc->mapTypeIntoContext(element->getArgumentInterfaceType())`. -/
def substitutedElementType (dc : DeclContext) (e : EnumElementDecl) : Ty :=
  mapTypeIntoContext dc e.argumentInterfaceType

/-- The loop of `StorageVisitor::visit` over stored properties: visit each
in order, stopping as soon as the callback answers `true`. -/
def visitStoredProperties (dc : DeclContext) (onProp : PropCallback) :
    List VarDecl → VisitSt → Bool × VisitSt
  | [], st => (false, st)
  | p :: rest, st =>
    match onProp p (substitutedPropertyType dc p) st with
    | (true, st1) => (true, st1)
    | (false, st1) => visitStoredProperties dc onProp rest st1

/-- The inner loop of `StorageVisitor::visit` over one case's elements,
skipping elements without associated values. -/
def visitElements (dc : DeclContext) (onElem : ElemCallback) :
    List EnumElementDecl → VisitSt → Bool × VisitSt
  | [], st => (false, st)
  | e :: rest, st =>
    if e.hasAssociatedValues then
      match onElem e (substitutedElementType dc e) st with
      | (true, st1) => (true, st1)
      | (false, st1) => visitElements dc onElem rest st1
    else
      visitElements dc onElem rest st

/-- The outer loop of `StorageVisitor::visit` over an enum's cases. -/
def visitEnumCases (dc : DeclContext) (onElem : ElemCallback) :
    List EnumCaseDecl → VisitSt → Bool × VisitSt
  | [], st => (false, st)
  | c :: rest, st =>
    match visitElements dc onElem c.elements st with
    | (true, st1) => (true, st1)
    | (false, st1) => visitEnumCases dc onElem rest st1

/-- Mirrors `StorageVisitor::visit(NominalTypeDecl *, DeclContext *)`:
walk stored properties of structs and classes, payload-carrying enum
elements of enums; otherwise run the trailing
`assert(!isa<ProtocolDecl>(nominal) || !isa<BuiltinTupleDecl>(nominal))`
(modelled as setting the fatal flag when its condition is false) and
return `false`. -/
def StorageVisitor.visit (nominal : NominalTypeDecl) (dc : DeclContext)
    (onProp : PropCallback) (onElem : ElemCallback) (st : VisitSt) :
    Bool × VisitSt :=
  match nominal.kind with
  | .structDecl => visitStoredProperties dc onProp nominal.storedProperties st
  | .classDecl => visitStoredProperties dc onProp nominal.storedProperties st
  | .enumDecl => visitEnumCases dc onElem nominal.cases st
  | k =>
    if ¬(k = DeclKind.protocolDecl) ∨ ¬(k = DeclKind.builtinTupleDecl) then
      (false, st)
    else
      (false, { st with fatalFlag := true })

/-- Mirrors `HasNoncopyable::check`: ignore members whose type has an
error; consult the noncopyability query (`Type::isNoncopyable`, passed in
as `oracle`); when diagnosing, emit the member diagnostic and run the
containment fix-it tracer. -/
def HasNoncopyable.check (world : World) (oracle : Ty → Bool)
    (diagnosing : Bool) (nom : NominalTypeDecl) (memberName : String)
    (ty : Ty) (isEnum : Bool) (st : VisitSt) : Bool × VisitSt :=
  if ty.hasError then (false, st)
  else if oracle ty = false then (false, st)
  else if diagnosing = false then (true, st)
  else
    let st1 := { st with
      diags := st.diags ++ [Diag.noncopyableTypeMemberInCopyable ty isEnum memberName nom.id] }
    match tryEmitContainmentFixits world nom ty KnownProtocolKind.Copyable with
    | .ok ds => (true, { st1 with diags := st1.diags ++ ds })
    | .fatal ds => (true, { st1 with diags := st1.diags ++ ds, fatalFlag := true })

/-- Result of the structural validator: a boolean verdict with the emitted
diagnostics, or an internal-invariant failure. -/
inductive CheckRes where
  | ok (val : Bool) (diags : List Diag)
  | fatal (diags : List Diag)
deriving DecidableEq, Repr

/-- Mirrors `checkCopyableConformance` for a conformance whose type
resolves to `nom` and whose declaration context is `dc`: classes and
protocols validate trivially; a builtin tuple declaration hits
`llvm_unreachable("TODO: BuiltinTupleDecl")`; otherwise the
`HasNoncopyable` visitor (with `diagnose=true`) walks the storage and the
verdict is the negation of its answer. -/
def checkCopyableConformance (world : World) (oracle : Ty → Bool)
    (nom : NominalTypeDecl) (dc : DeclContext) : CheckRes :=
  match nom.kind with
  | .classDecl => .ok true []
  | .protocolDecl => .ok true []
  | .builtinTupleDecl => .fatal []
  | _ =>
    let r := StorageVisitor.visit nom dc
      (fun p ty st => HasNoncopyable.check world oracle true nom p.name ty false st)
      (fun e ty st => HasNoncopyable.check world oracle true nom e.name ty true st)
      { diags := [], fatalFlag := false }
    if r.2.fatalFlag then .fatal r.2.diags else .ok (!r.1) r.2.diags

/-- A protocol conformance record as produced by
`ASTContext::getNormalConformance` plus
`setSourceKindAndImplyingConformance`.  `dcExtension = none` means the
declaring context is the nominal itself; `some extId` means the
synthesized extension with that id. -/
inductive ConformanceState where
  | incomplete
  | complete
deriving DecidableEq, Repr

/-- The source kind recorded on the conformance entry. -/
inductive ConformanceEntryKind where
  | explicitEntry
  | synthesized
deriving DecidableEq, Repr

/-- A synthesized protocol conformance record (the "Grant"). -/
structure ProtocolConformance where
  id : Nat
  typeDeclId : Nat
  protoKind : KnownProtocolKind
  loc : Option Nat
  dcExtension : Option Nat
  state : ConformanceState
  sourceKind : ConformanceEntryKind
  isUnchecked : Bool
deriving DecidableEq, Repr

/-- A synthesized implicit extension (`ExtensionDecl::create` + setup). -/
structure ExtensionDecl where
  id : Nat
  isImplicit : Bool
  inheritedProto : String
  genericSig : GenericSig
  extendedNominal : Option Nat
deriving DecidableEq, Repr

/-- Mirrors the external generic-signature builder
`buildGenericSignature(ctx, baseSig, addedParams, addedReqs)`, a pure
merge of its inputs (spec section 6: "given a base signature and an
additional requirement set, returns a merged signature"). -/
def buildGenericSignature (base : GenericSig) (addedParams : List Nat)
    (addedReqs : List Requirement) : GenericSig :=
  { params := base.params ++ addedParams, reqs := base.reqs ++ addedReqs }

/-- The mutable AST state touched by the grant synthesizer: the registered
conformances, the created extensions, the synthesized file's top-level
declarations, the diagnostics, and a fresh-id counter giving object
identity. -/
structure DeriveState where
  conformances : List ProtocolConformance
  extensions : List ExtensionDecl
  topLevelSynth : List Nat
  diags : List Diag
  nextId : Nat
deriving DecidableEq, Repr

/-- Result of `deriveConformanceForInvertible`: the optional conformance
and the updated state, or an internal-invariant failure. -/
inductive DeriveRes where
  | ok (conf : Option ProtocolConformance) (st : DeriveState)
  | fatal (st : DeriveState)
deriving DecidableEq, Repr

/-- Mirrors the local lambda `generateConformance`: form a complete,
synthesized conformance in the given declaration context and register it
on the nominal. -/
def generateConformance (nominal : NominalTypeDecl) (kp : KnownProtocolKind)
    (dcExtension : Option Nat) (st : DeriveState) :
    ProtocolConformance × DeriveState :=
  let conf : ProtocolConformance :=
    { id := st.nextId
      typeDeclId := nominal.id
      protoKind := kp
      loc := nominal.loc
      dcExtension := dcExtension
      state := .complete
      sourceKind := .synthesized
      isUnchecked := false }
  (conf, { st with
    conformances := st.conformances ++ [conf]
    nextId := st.nextId + 1 })

/-- Mirrors the local lambda `generateConditionalConformance`: create an
implicit extension; give it the nominal's generic signature extended with
one conformance requirement per generic parameter; bind it to the nominal;
add it to the synthesized file's top-level declarations when the nominal's
module-scope context is a `FileUnit`; then create the conformance with the
extension as its declaring context. -/
def generateConditionalConformance (nominal : NominalTypeDecl)
    (kp : KnownProtocolKind) (st : DeriveState) :
    ProtocolConformance × DeriveState :=
  let protoName := getProtocolName kp
  let extId := st.nextId
  let baseSig := nominal.genericSig
  let reqs := baseSig.params.map
    (fun p => { kind := RequirementKind.conformance, subject := p,
                constraintProto := protoName : Requirement })
  let sig := buildGenericSignature baseSig [] reqs
  let ext : ExtensionDecl :=
    { id := extId
      isImplicit := true
      inheritedProto := protoName
      genericSig := sig
      extendedNominal := some nominal.id }
  let st := { st with
    extensions := st.extensions ++ [ext]
    nextId := extId + 1 }
  let st :=
    if nominal.moduleScopeIsFileUnit then
      { st with topLevelSynth := st.topLevelSynth ++ [extId] }
    else st
  generateConformance nominal kp (some extId) st

/-- Mirrors `deriveConformanceForInvertible`: a non-invertible protocol is
`llvm_unreachable`; for `Copyable`, an explicit positive marking wins
(diagnosing the contradiction when the inverse is also explicit) and
yields an unconditional conformance; an inferred positive marking fails
the `assert(positive == None)`; otherwise the inverse marking decides:
explicit yields no conformance, inferred yields the conditional
conformance, none yields the unconditional one. -/
def deriveConformanceForInvertible (nominal : NominalTypeDecl)
    (kp : KnownProtocolKind) (st : DeriveState) : DeriveRes :=
  match getInvertibleProtocolKind kp with
  | none => .fatal st
  | some .Copyable =>
    let marking := nominal.marking
    match marking.positive.kind with
    | .explicit =>
      let st :=
        if marking.inverse.kind = MarkKind.explicit then
          { st with diags := st.diags ++
              [Diag.noncopyableButCopyable marking.inverse.loc nominal.id] }
        else st
      let r := generateConformance nominal kp none st
      .ok (some r.1) r.2
    | .inferred => .fatal st
    | .none =>
      match marking.inverse.kind with
      | .explicit => .ok none st
      | .inferred =>
        let r := generateConditionalConformance nominal kp st
        .ok (some r.1) r.2
      | .none =>
        let r := generateConformance nominal kp none st
        .ok (some r.1) r.2

/-- A memo table from (nominal id, protocol kind) to the previously
produced optional conformance. -/
abbrev GrantCache := List ((Nat × KnownProtocolKind) × Option ProtocolConformance)

/-- Lookup in the memo table. -/
def lookupGrant (cache : GrantCache) (key : Nat × KnownProtocolKind) :
    Option (Option ProtocolConformance) :=
  match cache with
  | [] => none
  | (k, v) :: rest => if k = key then some v else lookupGrant rest key

/-- Result of a memoized derivation: value, cache and state, or failure. -/
inductive MemoRes where
  | ok (conf : Option ProtocolConformance) (cache : GrantCache) (st : DeriveState)
  | fatal (cache : GrantCache) (st : DeriveState)
deriving DecidableEq, Repr

/-- Modelled from the spec: the request-evaluator caching layer around
`deriveConformanceForInvertible` (the request that invokes it is cached;
the caching machinery itself is not part of this file's source).  Spec:
"Grants are created at most once per (Type Declaration, Capability) pair;
creation is idempotent with respect to re-evaluation (memoized)" and
"re-deriving a grant for a pair already present in the table returns the
cached result without side effects or diagnostics". -/
def deriveGrantMemoized (cache : GrantCache) (nominal : NominalTypeDecl)
    (kp : KnownProtocolKind) (st : DeriveState) : MemoRes :=
  match lookupGrant cache (nominal.id, kp) with
  | some r => .ok r cache st
  | none =>
    match deriveConformanceForInvertible nominal kp st with
    | .ok c st1 => .ok c (((nominal.id, kp), c) :: cache) st1
    | .fatal st1 => .fatal cache st1

/-- The substitution pipeline exactly as the specification words it
("mapped into the given context, its reference-storage wrapper (if any)
is stripped, and r-value normalization is applied"), for comparison with
the pipeline the code applies.  This definition follows the spec's words,
not the source. -/
def specSubstitutedType (dc : DeclContext) (t : Ty) : Ty :=
  ((mapTypeIntoContext dc t).getReferenceStorageReferent).getRValueType

/-- Payload interface types of an element list, skipping payload-less
elements, in visit order. -/
def payloadInterfaceTypesOfElems : List EnumElementDecl → List Ty
  | [] => []
  | e :: rest =>
    if e.hasAssociatedValues then
      e.argumentInterfaceType :: payloadInterfaceTypesOfElems rest
    else
      payloadInterfaceTypesOfElems rest

/-- Payload interface types of a case list, in visit order. -/
def payloadInterfaceTypesOfCases : List EnumCaseDecl → List Ty
  | [] => []
  | c :: rest => payloadInterfaceTypesOfElems c.elements ++ payloadInterfaceTypesOfCases rest

/-- The interface types of the storage members the visitor walks, in
visit order: stored properties for structs and classes, payload-carrying
elements for enums. -/
def memberInterfaceTypes (nominal : NominalTypeDecl) : List Ty :=
  match nominal.kind with
  | .structDecl => nominal.storedProperties.map (·.interfaceType)
  | .classDecl => nominal.storedProperties.map (·.interfaceType)
  | .enumDecl => payloadInterfaceTypesOfCases nominal.cases
  | _ => []

/-- Substituted payload types of an element list, as the source computes
them (map into context only). -/
def payloadTypesOfElems (dc : DeclContext) : List EnumElementDecl → List Ty
  | [] => []
  | e :: rest =>
    if e.hasAssociatedValues then
      substitutedElementType dc e :: payloadTypesOfElems dc rest
    else
      payloadTypesOfElems dc rest

/-- Substituted payload types of a case list, in visit order. -/
def payloadTypesOfCases (dc : DeclContext) : List EnumCaseDecl → List Ty
  | [] => []
  | c :: rest => payloadTypesOfElems dc c.elements ++ payloadTypesOfCases dc rest

/-- The substituted types the visitor actually presents to its callbacks,
in visit order, as the source computes them: map, r-value-normalize, strip
reference storage for properties; map only for enum payloads. -/
def visitedTypes (nominal : NominalTypeDecl) (dc : DeclContext) : List Ty :=
  match nominal.kind with
  | .structDecl => nominal.storedProperties.map (substitutedPropertyType dc)
  | .classDecl => nominal.storedProperties.map (substitutedPropertyType dc)
  | .enumDecl => payloadTypesOfCases dc nominal.cases
  | _ => []

/-- Whether a derivation result is a conditional grant, i.e. a conformance
whose declaring context is a synthesized extension. -/
def DeriveRes.grantIsConditional : DeriveRes → Bool
  | .ok (some c) _ => c.dcExtension.isSome
  | _ => false

/-- The top-level synthesized declarations after a derivation. -/
def DeriveRes.topLevelList : DeriveRes → List Nat
  | .ok _ st => st.topLevelSynth
  | .fatal st => st.topLevelSynth

/-- The synthesized extensions after a derivation. -/
def DeriveRes.extensionsList : DeriveRes → List ExtensionDecl
  | .ok _ st => st.extensions
  | .fatal st => st.extensions

/-- A declaration context substituting each generic parameter by its own
archetype (the usual context of the declaration itself). -/
def identityContext : DeclContext := ⟨fun i => Ty.param i⟩

/-- A world with no resolvable declarations. -/
def emptyWorld : World := ⟨fun _ => none, fun _ => none⟩

/-- The empty visitor state. -/
def emptyVisitSt : VisitSt := ⟨[], false⟩

/-- The derivation state before any synthesis. -/
def initialDeriveState : DeriveState := ⟨[], [], [], [], 0⟩

/-- An enum with a single payload-carrying element whose payload interface
type is wrapped in reference storage. -/
def demoEnumDecl : NominalTypeDecl :=
  { id := 1, kind := .enumDecl, name := "E", moduleId := 0, loc := some 10,
    bracesStart := 11, inheritedEntries := [], inheritedEndLoc := 12,
    storedProperties := [],
    cases := [⟨[⟨"payload", true, .refStorage (.base "X")⟩]⟩],
    genericSig := ⟨[], []⟩,
    marking := ⟨⟨.none, none⟩, ⟨.none, none⟩⟩,
    moduleScopeIsFileUnit := true }

/-- A generic struct with an inferred inverse marking (the conditional
synthesis case), living in a file unit. -/
def demoInferredStruct : NominalTypeDecl :=
  { demoEnumDecl with
    id := 2
    kind := .structDecl
    storedProperties := [⟨"value", .param 7⟩]
    genericSig := ⟨[7], []⟩
    marking := ⟨⟨.none, none⟩, ⟨.inferred, some 5⟩⟩ }

/-- The same struct, but whose module-scope context is not a file unit. -/
def demoInferredNoFile : NominalTypeDecl :=
  { demoInferredStruct with moduleScopeIsFileUnit := false }

/-- A struct marked both explicitly Copyable and explicitly noncopyable. -/
def demoContradictionStruct : NominalTypeDecl :=
  { demoInferredStruct with
    id := 5
    marking := ⟨⟨.explicit, some 20⟩, ⟨.explicit, some 21⟩⟩ }

/-- A struct with an explicit inverse marking and no positive marking. -/
def demoExplicitInverse : NominalTypeDecl :=
  { demoInferredStruct with
    id := 8
    marking := ⟨⟨.none, none⟩, ⟨.explicit, some 22⟩⟩ }

/-- A class declaration with a stored field of some leaf type. -/
def demoClassDecl : NominalTypeDecl :=
  { demoEnumDecl with
    id := 7
    kind := .classDecl
    storedProperties := [⟨"field", .base "NC"⟩]
    cases := [] }

/-- A protocol declaration (which, in this model, even carries a stored
property list, to witness that the visitor ignores it). -/
def demoProtocolDecl : NominalTypeDecl :=
  { demoEnumDecl with
    id := 10
    kind := .protocolDecl
    storedProperties := [⟨"req", .base "NC"⟩]
    cases := [] }

/-- A builtin tuple declaration. -/
def demoBuiltinTupleDecl : NominalTypeDecl :=
  { demoEnumDecl with id := 3, kind := .builtinTupleDecl }

/-- A nominal declaration with a known source location and no inverse
marking at all, to stand as the offending member type of the tracer. -/
def demoMemberDecl : NominalTypeDecl :=
  { demoEnumDecl with id := 9, loc := some 30 }

/-- A world resolving declaration id 9 to `demoMemberDecl`. -/
def demoWorldWithMember : World :=
  ⟨fun d => if d = 9 then some demoMemberDecl else none, fun _ => none⟩

/-- A struct whose only stored field has an erroneous type. -/
def demoErrorStruct : NominalTypeDecl :=
  { demoInferredStruct with
    id := 4
    storedProperties := [⟨"bad", .errorTy⟩]
    marking := ⟨⟨.none, none⟩, ⟨.none, none⟩⟩ }

/-- A struct whose only stored field's interface type is an l-value
wrapping a reference-storage wrapper. -/
def demoLValueStruct : NominalTypeDecl :=
  { demoInferredStruct with
    id := 11
    storedProperties := [⟨"weakref", .lvalue (.refStorage (.base "X"))⟩]
    marking := ⟨⟨.none, none⟩, ⟨.none, none⟩⟩ }

/-- The conformance produced by deriving on `demoInferredStruct` from the
initial state. -/
def c1Conf : ProtocolConformance :=
  { id := 1, typeDeclId := 2, protoKind := .Copyable, loc := some 10,
    dcExtension := some 0, state := .complete, sourceKind := .synthesized,
    isUnchecked := false }

/-- The extension produced by deriving on `demoInferredStruct` from the
initial state. -/
def c1Ext : ExtensionDecl :=
  { id := 0, isImplicit := true, inheritedProto := "Copyable",
    genericSig := ⟨[7], [⟨.conformance, 7, "Copyable"⟩]⟩,
    extendedNominal := some 2 }

/-- The derivation state after deriving on `demoInferredStruct` from the
initial state. -/
def c1State : DeriveState := ⟨[c1Conf], [c1Ext], [0], [], 2⟩

/-- The memo table after the first memoized derivation on
`demoInferredStruct`. -/
def c1Cache : GrantCache := [((2, .Copyable), some c1Conf)]

/-- C2.  For every type declaration whose inverse marking is Explicit and
whose positive marking is None, `deriveConformanceForInvertible` for
Copyable returns absent (`none`) and leaves the state untouched: no
conformance is registered, no extension or top-level declaration is
created, no diagnostic is emitted. -/
theorem derive_explicitInverse_absent (n : NominalTypeDecl) (st : DeriveState)
    (hpos : n.marking.positive.kind = MarkKind.none)
    (hinv : n.marking.inverse.kind = MarkKind.explicit) :
    deriveConformanceForInvertible n KnownProtocolKind.Copyable st = .ok none st := by
  simp [deriveConformanceForInvertible, getInvertibleProtocolKind, hpos, hinv]

/-- C2 witness: the explicit-inverse demo struct derives to absent with an
unchanged initial state. -/
theorem derive_explicitInverse_absent_witness :
    deriveConformanceForInvertible demoExplicitInverse KnownProtocolKind.Copyable
      initialDeriveState = .ok none initialDeriveState :=
  derive_explicitInverse_absent demoExplicitInverse initialDeriveState (by decide) (by decide)

/-- C4.  For every type declaration marked positive-Explicit and
inverse-Explicit, a single derivation call emits exactly one contradiction
diagnostic (appended to whatever diagnostics existed) and returns an
unconditional conformance: its declaring context is the nominal itself
(`dcExtension = none`), and no extension or top-level synthetic
declaration is created. -/
theorem derive_contradiction_unconditional (n : NominalTypeDecl) (st : DeriveState)
    (hpos : n.marking.positive.kind = MarkKind.explicit)
    (hinv : n.marking.inverse.kind = MarkKind.explicit) :
    deriveConformanceForInvertible n KnownProtocolKind.Copyable st = .ok
      (some { id := st.nextId
              typeDeclId := n.id
              protoKind := KnownProtocolKind.Copyable
              loc := n.loc
              dcExtension := none
              state := ConformanceState.complete
              sourceKind := ConformanceEntryKind.synthesized
              isUnchecked := false })
      { conformances := st.conformances ++
          [{ id := st.nextId
             typeDeclId := n.id
             protoKind := KnownProtocolKind.Copyable
             loc := n.loc
             dcExtension := none
             state := ConformanceState.complete
             sourceKind := ConformanceEntryKind.synthesized
             isUnchecked := false }]
        extensions := st.extensions
        topLevelSynth := st.topLevelSynth
        diags := st.diags ++ [Diag.noncopyableButCopyable n.marking.inverse.loc n.id]
        nextId := st.nextId + 1 } := by
  simp [deriveConformanceForInvertible, getInvertibleProtocolKind, generateConformance,
    hpos, hinv]

/-- C4 witness: the contradictory demo struct derives from the initial
state to one contradiction diagnostic and an unconditional conformance. -/
theorem derive_contradiction_unconditional_witness :
    deriveConformanceForInvertible demoContradictionStruct KnownProtocolKind.Copyable
      initialDeriveState = .ok
      (some { id := 0, typeDeclId := 5, protoKind := KnownProtocolKind.Copyable,
              loc := some 10, dcExtension := none, state := ConformanceState.complete,
              sourceKind := ConformanceEntryKind.synthesized, isUnchecked := false })
      { conformances := [{ id := 0, typeDeclId := 5,
                           protoKind := KnownProtocolKind.Copyable, loc := some 10,
                           dcExtension := none, state := ConformanceState.complete,
                           sourceKind := ConformanceEntryKind.synthesized,
                           isUnchecked := false }]
        extensions := []
        topLevelSynth := []
        diags := [Diag.noncopyableButCopyable (some 21) 5]
        nextId := 1 } := by
  have h := derive_contradiction_unconditional demoContradictionStruct initialDeriveState
    (by decide) (by decide)
  rw [h]
  decide

/-- C6.  Structural validation of a Copyable conformance on a class
declaration returns true with no diagnostics, whatever the world, the
noncopyability query, the context, and (in particular) the class's stored
fields: the storage is never consulted. -/
theorem checkCopyable_class_trivially_valid (world : World) (oracle : Ty → Bool)
    (nom : NominalTypeDecl) (dc : DeclContext)
    (h : nom.kind = DeclKind.classDecl) :
    checkCopyableConformance world oracle nom dc = .ok true [] := by
  unfold checkCopyableConformance
  rw [h]

/-- C6 witness: the demo class with a stored field validates true even
under a query that deems every type noncopyable. -/
theorem checkCopyable_class_trivially_valid_witness :
    checkCopyableConformance emptyWorld (fun _ => true) demoClassDecl identityContext
      = .ok true [] :=
  checkCopyable_class_trivially_valid emptyWorld (fun _ => true) demoClassDecl
    identityContext (by decide)

/-- C7.  The storage visitor on a protocol declaration returns false and
leaves the state untouched, for every pair of callbacks; in particular for
the constant-true callbacks, which answer true on any invocation, so the
result false also shows no callback was ever invoked. -/
theorem visit_protocolDecl_false (nom : NominalTypeDecl) (dc : DeclContext)
    (f : PropCallback) (g : ElemCallback) (st : VisitSt)
    (h : nom.kind = DeclKind.protocolDecl) :
    StorageVisitor.visit nom dc f g st = (false, st) := by
  unfold StorageVisitor.visit
  rw [h]
  rfl

/-- C7 witness: on the demo protocol declaration (which the model even
equips with a stored property), the visitor with constant-true callbacks
returns false with the state untouched. -/
theorem visit_protocolDecl_false_witness :
    StorageVisitor.visit demoProtocolDecl identityContext
      (fun _ _ s => (true, s)) (fun _ _ s => (true, s)) emptyVisitSt
      = (false, emptyVisitSt) :=
  visit_protocolDecl_false demoProtocolDecl identityContext
    (fun _ _ s => (true, s)) (fun _ _ s => (true, s)) emptyVisitSt (by decide)

/-- C8.  Reaching the structural validator with a builtin tuple
declaration is fatal (`llvm_unreachable`), as the claim states; but
reaching the storage traversal itself with a builtin tuple declaration is
NOT: its final assertion
`assert(!isa<ProtocolDecl>(nominal) || !isa<BuiltinTupleDecl>(nominal))`
is a tautology (the disjunct `!isa<ProtocolDecl>` is true for a builtin
tuple declaration), so the traversal returns false normally, for every
context, callback pair and state — the code contradicts the evident
intent of its own assertion. -/
theorem visit_builtinTuple_no_abort :
    (∀ (dc : DeclContext) (f : PropCallback) (g : ElemCallback) (st : VisitSt),
        StorageVisitor.visit demoBuiltinTupleDecl dc f g st = (false, st))
    ∧ (∀ (world : World) (oracle : Ty → Bool) (dc : DeclContext),
        checkCopyableConformance world oracle demoBuiltinTupleDecl dc
          = CheckRes.fatal []) := by
  constructor
  · intro dc f g st
    rfl
  · intro world oracle dc
    rfl

/-- C9.  When the containment tracer is given an offending type that
resolves to a nominal declaration with a known source location whose
inverse marking is None, it hits the assertion
`assert(false && "how did it become noncopyable then?")`: the result is
fatal (after the always-emitted "add the inverse" diagnostic), never a
silent fall-through. -/
theorem tracer_inverseNone_fatal (world : World) (enclosing : NominalTypeDecl)
    (d : Nat) (decl : NominalTypeDecl) (l : Nat)
    (hres : world.decls d = some decl)
    (hloc : decl.loc = some l)
    (hinv : decl.marking.inverse.kind = MarkKind.none) :
    tryEmitContainmentFixits world enclosing (Ty.nominalTy d) KnownProtocolKind.Copyable
      = .fatal [Diag.addInverse enclosing.id (getProtocolName KnownProtocolKind.Copyable)
          (addConformanceFixIt enclosing KnownProtocolKind.Copyable true)] := by
  simp [tryEmitContainmentFixits, Ty.getAnyNominal, hres, hloc, hinv]

/-- Visiting stored properties with a pure predicate callback answers
whether some substituted property type satisfies the predicate, leaving
the state untouched. -/
theorem visitStoredProperties_pure (dc : DeclContext) (pred : Ty → Bool)
    (props : List VarDecl) (st : VisitSt) :
    visitStoredProperties dc (fun _ t s => (pred t, s)) props st
      = ((props.map (substitutedPropertyType dc)).any pred, st) := by
  induction props generalizing st with
  | nil => rfl
  | cons p rest ih =>
    simp only [visitStoredProperties, List.map_cons, List.any_cons]
    cases hp : pred (substitutedPropertyType dc p)
    · simp only [hp, Bool.false_or]
      exact ih st
    · simp [hp]

/-- Visiting one case's elements with a pure predicate callback answers
whether some substituted payload type satisfies the predicate. -/
theorem visitElements_pure (dc : DeclContext) (pred : Ty → Bool)
    (elems : List EnumElementDecl) (st : VisitSt) :
    visitElements dc (fun _ t s => (pred t, s)) elems st
      = ((payloadTypesOfElems dc elems).any pred, st) := by
  induction elems generalizing st with
  | nil => rfl
  | cons e rest ih =>
    simp only [visitElements, payloadTypesOfElems]
    cases ha : e.hasAssociatedValues
    · simp only [Bool.false_eq_true, if_false]
      exact ih st
    · simp only [if_true]
      cases hp : pred (substitutedElementType dc e)
      · simp only [hp, List.any_cons, Bool.false_or]
        exact ih st
      · simp [hp]

/-- Visiting an enum's cases with a pure predicate callback answers
whether some substituted payload type satisfies the predicate. -/
theorem visitEnumCases_pure (dc : DeclContext) (pred : Ty → Bool)
    (cs : List EnumCaseDecl) (st : VisitSt) :
    visitEnumCases dc (fun _ t s => (pred t, s)) cs st
      = ((payloadTypesOfCases dc cs).any pred, st) := by
  induction cs generalizing st with
  | nil => rfl
  | cons c rest ih =>
    simp only [visitEnumCases, payloadTypesOfCases, List.any_append]
    rw [visitElements_pure]
    cases he : (payloadTypesOfElems dc c.elements).any pred
    · simp only [Bool.false_or]
      exact ih st
    · simp

/-- C5 counterexample.  The specification says every member's callback
type is "mapped into the given context, then stripped of any
reference-storage wrapper, then r-value normalized"
(`specSubstitutedType`).  At two concrete inputs a callback looking
exactly for that type never fires: for the enum payload
`refStorage (base X)` the code passes the mapped type unstripped, and for
a stored property of type `lvalue (refStorage (base X))` the code
normalizes the r-value before stripping, yielding `base X` where the
spec's order yields `refStorage (base X)`. -/
theorem visitor_spec_substitution_cex :
    ¬ (StorageVisitor.visit demoEnumDecl identityContext
        (fun _ t s => (decide (t = Ty.base "X"), s))
        (fun _ t s => (decide (t = Ty.base "X"), s)) emptyVisitSt
      = (((memberInterfaceTypes demoEnumDecl).map
            (specSubstitutedType identityContext)).any
              (fun t => decide (t = Ty.base "X")), emptyVisitSt))
    ∧ ¬ (StorageVisitor.visit demoLValueStruct identityContext
        (fun _ t s => (decide (t = Ty.refStorage (Ty.base "X")), s))
        (fun _ t s => (decide (t = Ty.refStorage (Ty.base "X")), s)) emptyVisitSt
      = (((memberInterfaceTypes demoLValueStruct).map
            (specSubstitutedType identityContext)).any
              (fun t => decide (t = Ty.refStorage (Ty.base "X"))), emptyVisitSt)) := by
  decide

/-- C5 (amended).  For every declaration and every pure observation
`pred` of the type passed to the callbacks, the storage visitor behaves
exactly as the walk over `visitedTypes`: stored properties of structs and
classes are presented with their interface type mapped into the context,
r-value normalized, then stripped of a reference-storage wrapper
(`substitutedPropertyType`), while enum payload slots are presented with
their argument interface type mapped into the context only
(`substitutedElementType`); the state is untouched. -/
theorem visitor_substitution_types (nominal : NominalTypeDecl) (dc : DeclContext)
    (pred : Ty → Bool) (st : VisitSt) :
    StorageVisitor.visit nominal dc
        (fun _ t s => (pred t, s)) (fun _ t s => (pred t, s)) st
      = ((visitedTypes nominal dc).any pred, st) := by
  unfold StorageVisitor.visit visitedTypes
  cases hk : nominal.kind
  case structDecl => exact visitStoredProperties_pure dc pred nominal.storedProperties st
  case classDecl => exact visitStoredProperties_pure dc pred nominal.storedProperties st
  case enumDecl => exact visitEnumCases_pure dc pred nominal.cases st
  case protocolDecl => rfl
  case builtinTupleDecl => rfl

/-- A member whose oracle verdict can only be positive when its type has
an error never stops the `HasNoncopyable` walk and never touches the
state. -/
theorem check_false_of_benign (world : World) (oracle : Ty → Bool)
    (diagnosing : Bool) (nom : NominalTypeDecl) (memberName : String) (ty : Ty)
    (isEnum : Bool) (h : oracle ty = true → ty.hasError = true) (st : VisitSt) :
    HasNoncopyable.check world oracle diagnosing nom memberName ty isEnum st
      = (false, st) := by
  unfold HasNoncopyable.check
  cases herr : ty.hasError
  · cases hor : oracle ty
    · simp [herr, hor]
    · exact absurd (h hor) (by simp [herr])
  · simp [herr]

/-- If every stored property's callback answers false without touching
the state, the property walk answers false without touching the state. -/
theorem visitStoredProperties_false (dc : DeclContext) (onProp : PropCallback)
    (props : List VarDecl)
    (hp : ∀ p ∈ props, ∀ s, onProp p (substitutedPropertyType dc p) s = (false, s)) :
    ∀ st, visitStoredProperties dc onProp props st = (false, st) := by
  induction props with
  | nil => intro st; rfl
  | cons p rest ih =>
    intro st
    simp only [visitStoredProperties]
    rw [hp p (List.mem_cons_self p rest) st]
    exact ih (fun q hq s => hp q (List.mem_cons_of_mem p hq) s) st

/-- If every payload-carrying element's callback answers false without
touching the state, the element walk answers false without touching it. -/
theorem visitElements_false (dc : DeclContext) (onElem : ElemCallback)
    (elems : List EnumElementDecl)
    (he : ∀ e ∈ elems, e.hasAssociatedValues = true →
      ∀ s, onElem e (substitutedElementType dc e) s = (false, s)) :
    ∀ st, visitElements dc onElem elems st = (false, st) := by
  induction elems with
  | nil => intro st; rfl
  | cons e rest ih =>
    intro st
    simp only [visitElements]
    cases ha : e.hasAssociatedValues
    · simp only [Bool.false_eq_true, if_false]
      exact ih (fun x hx hax s => he x (List.mem_cons_of_mem e hx) hax s) st
    · simp only [if_true]
      rw [he e (List.mem_cons_self e rest) ha st]
      exact ih (fun x hx hax s => he x (List.mem_cons_of_mem e hx) hax s) st

/-- If every payload-carrying element's callback answers false without
touching the state, the case walk answers false without touching it. -/
theorem visitEnumCases_false (dc : DeclContext) (onElem : ElemCallback)
    (cs : List EnumCaseDecl)
    (he : ∀ c ∈ cs, ∀ e ∈ c.elements, e.hasAssociatedValues = true →
      ∀ s, onElem e (substitutedElementType dc e) s = (false, s)) :
    ∀ st, visitEnumCases dc onElem cs st = (false, st) := by
  induction cs with
  | nil => intro st; rfl
  | cons c rest ih =>
    intro st
    simp only [visitEnumCases]
    rw [visitElements_false dc onElem c.elements
      (he c (List.mem_cons_self c rest)) st]
    exact ih (fun x hx => he x (List.mem_cons_of_mem c hx)) st

/-- The substituted type of a payload-carrying element of an element list
occurs among that list's payload types. -/
theorem mem_payloadTypesOfElems (dc : DeclContext) {e : EnumElementDecl}
    {elems : List EnumElementDecl} (hmem : e ∈ elems)
    (ha : e.hasAssociatedValues = true) :
    substitutedElementType dc e ∈ payloadTypesOfElems dc elems := by
  induction elems with
  | nil => cases hmem
  | cons x rest ih =>
    rcases List.mem_cons.mp hmem with h | h
    · subst h
      simp [payloadTypesOfElems, ha]
    · cases hx : x.hasAssociatedValues <;>
        simp [payloadTypesOfElems, hx, ih h]

/-- The substituted type of a payload-carrying element of a case list
occurs among that list's payload types. -/
theorem mem_payloadTypesOfCases (dc : DeclContext) {c : EnumCaseDecl}
    {cs : List EnumCaseDecl} (hc : c ∈ cs) {e : EnumElementDecl}
    (hmem : e ∈ c.elements) (ha : e.hasAssociatedValues = true) :
    substitutedElementType dc e ∈ payloadTypesOfCases dc cs := by
  induction cs with
  | nil => cases hc
  | cons x rest ih =>
    rcases List.mem_cons.mp hc with h | h
    · subst h
      exact List.mem_append.mpr (Or.inl (mem_payloadTypesOfElems dc hmem ha))
    · exact List.mem_append.mpr (Or.inr (ih h))

/-- C10.  A storage member whose substituted type contains a type error
is skipped by the `HasNoncopyable` per-member check: it answers false and
emits nothing, regardless of the noncopyability query; consequently any
non-builtin-tuple declaration all of whose noncopyable-deemed member types
are erroneous passes structural validation with no diagnostics. -/
theorem errored_member_passes_check :
    (∀ (world : World) (oracle : Ty → Bool) (diagnosing : Bool)
        (nom : NominalTypeDecl) (memberName : String) (ty : Ty) (isEnum : Bool)
        (st : VisitSt), ty.hasError = true →
        HasNoncopyable.check world oracle diagnosing nom memberName ty isEnum st
          = (false, st))
    ∧ (∀ (world : World) (oracle : Ty → Bool) (nom : NominalTypeDecl)
        (dc : DeclContext), nom.kind ≠ DeclKind.builtinTupleDecl →
        (∀ t ∈ visitedTypes nom dc, oracle t = true → t.hasError = true) →
        checkCopyableConformance world oracle nom dc = .ok true []) := by
  constructor
  · intro world oracle diagnosing nom memberName ty isEnum st herr
    unfold HasNoncopyable.check
    simp [herr]
  · intro world oracle nom dc hbt hall
    cases hk : nom.kind
    case classDecl =>
      unfold checkCopyableConformance
      rw [hk]
    case protocolDecl =>
      unfold checkCopyableConformance
      rw [hk]
    case builtinTupleDecl => exact absurd hk hbt
    case structDecl =>
      have hv : StorageVisitor.visit nom dc
          (fun p ty st => HasNoncopyable.check world oracle true nom p.name ty false st)
          (fun e ty st => HasNoncopyable.check world oracle true nom e.name ty true st)
          { diags := [], fatalFlag := false }
          = (false, { diags := [], fatalFlag := false }) := by
        unfold StorageVisitor.visit
        rw [hk]
        refine visitStoredProperties_false dc _ nom.storedProperties ?_ _
        intro p hp s
        refine check_false_of_benign world oracle true nom p.name _ false ?_ s
        intro hor
        refine hall _ ?_ hor
        unfold visitedTypes
        rw [hk]
        exact List.mem_map_of_mem _ hp
      unfold checkCopyableConformance
      rw [hk]
      rw [hv]
      rfl
    case enumDecl =>
      have hv : StorageVisitor.visit nom dc
          (fun p ty st => HasNoncopyable.check world oracle true nom p.name ty false st)
          (fun e ty st => HasNoncopyable.check world oracle true nom e.name ty true st)
          { diags := [], fatalFlag := false }
          = (false, { diags := [], fatalFlag := false }) := by
        unfold StorageVisitor.visit
        rw [hk]
        refine visitEnumCases_false dc _ nom.cases ?_ _
        intro c hc e he hax s
        refine check_false_of_benign world oracle true nom e.name _ true ?_ s
        intro hor
        refine hall _ ?_ hor
        unfold visitedTypes
        rw [hk]
        exact mem_payloadTypesOfCases dc hc he hax
      unfold checkCopyableConformance
      rw [hk]
      rw [hv]
      rfl

/-- C10 witness: an error-typed member is skipped even under an
everything-is-noncopyable query, and the demo struct whose only field has
an erroneous type validates true with no diagnostics. -/
theorem errored_member_passes_check_witness :
    HasNoncopyable.check emptyWorld (fun _ => true) true demoErrorStruct "bad"
        Ty.errorTy false emptyVisitSt = (false, emptyVisitSt)
    ∧ checkCopyableConformance emptyWorld (fun _ => true) demoErrorStruct
        identityContext = .ok true [] :=
  ⟨errored_member_passes_check.1 emptyWorld (fun _ => true) true demoErrorStruct
      "bad" Ty.errorTy false emptyVisitSt (by decide),
   errored_member_passes_check.2 emptyWorld (fun _ => true) demoErrorStruct
      identityContext (by decide) (by decide)⟩

/-- C1.  Once a memoized derivation for a (declaration, capability) pair
has returned, deriving again for the same pair returns the very same
optional conformance (same object identity), the same memo table and the
same state: the second invocation registers no second conformance,
creates no second extension and appends no second top-level synthetic
declaration. -/
theorem derive_memoized_idempotent (cache : GrantCache) (nominal : NominalTypeDecl)
    (kp : KnownProtocolKind) (st : DeriveState) (conf : Option ProtocolConformance)
    (cache1 : GrantCache) (st1 : DeriveState)
    (h : deriveGrantMemoized cache nominal kp st = .ok conf cache1 st1) :
    deriveGrantMemoized cache1 nominal kp st1 = .ok conf cache1 st1 := by
  unfold deriveGrantMemoized at h ⊢
  cases hl : lookupGrant cache (nominal.id, kp) with
  | some r =>
    rw [hl] at h
    injection h with h1 h2 h3
    subst h1
    subst h2
    subst h3
    rw [hl]
  | none =>
    rw [hl] at h
    cases hd : deriveConformanceForInvertible nominal kp st with
    | ok c st2 =>
      rw [hd] at h
      injection h with h1 h2 h3
      subst h1
      subst h2
      subst h3
      have hcons : lookupGrant (((nominal.id, kp), c) :: cache) (nominal.id, kp)
          = some c := by
        simp [lookupGrant]
      rw [hcons]
    | fatal st2 =>
      rw [hd] at h
      cases h

/-- C1 witness: after the first memoized derivation on the inferred-inverse
demo struct, deriving again returns the cached conformance and leaves the
memo table and the state (conformances, extensions, top-level synthesized
declarations) unchanged. -/
theorem derive_memoized_idempotent_witness :
    deriveGrantMemoized c1Cache demoInferredStruct KnownProtocolKind.Copyable c1State
      = .ok (some c1Conf) c1Cache c1State :=
  derive_memoized_idempotent [] demoInferredStruct KnownProtocolKind.Copyable
    initialDeriveState (some c1Conf) c1Cache c1State (by decide)

/-- C3 counterexample.  For a declaration whose module-scope context is
not a file unit, derivation under an inferred inverse still produces a
conditional grant backed by a synthesized extension, but the extension is
NOT registered as a top-level synthetic declaration (the registration at
the source is guarded by a `dyn_cast<FileUnit>`), refuting the claim as
universally stated. -/
theorem derive_inferredInverse_topLevel_cex :
    (deriveConformanceForInvertible demoInferredNoFile KnownProtocolKind.Copyable
        initialDeriveState).grantIsConditional = true
    ∧ (deriveConformanceForInvertible demoInferredNoFile KnownProtocolKind.Copyable
        initialDeriveState).extensionsList ≠ []
    ∧ (deriveConformanceForInvertible demoInferredNoFile KnownProtocolKind.Copyable
        initialDeriveState).topLevelList = [] := by
  decide

/-- C3 (amended).  For every declaration with inferred inverse marking and
no positive marking whose module-scope context is a file unit, derivation
returns a conditional conformance: a synthesized implicit extension is
created whose generic signature is the declaration's signature extended
with exactly one Copyable conformance requirement per generic parameter,
the extension is appended to the top-level synthetic declarations, and the
conformance's declaring context is that extension. -/
theorem derive_inferredInverse_conditional (n : NominalTypeDecl) (st : DeriveState)
    (hpos : n.marking.positive.kind = MarkKind.none)
    (hinv : n.marking.inverse.kind = MarkKind.inferred)
    (hfile : n.moduleScopeIsFileUnit = true) :
    deriveConformanceForInvertible n KnownProtocolKind.Copyable st = .ok
      (some { id := st.nextId + 1
              typeDeclId := n.id
              protoKind := KnownProtocolKind.Copyable
              loc := n.loc
              dcExtension := some st.nextId
              state := ConformanceState.complete
              sourceKind := ConformanceEntryKind.synthesized
              isUnchecked := false })
      { conformances := st.conformances ++
          [{ id := st.nextId + 1
             typeDeclId := n.id
             protoKind := KnownProtocolKind.Copyable
             loc := n.loc
             dcExtension := some st.nextId
             state := ConformanceState.complete
             sourceKind := ConformanceEntryKind.synthesized
             isUnchecked := false }]
        extensions := st.extensions ++
          [{ id := st.nextId
             isImplicit := true
             inheritedProto := "Copyable"
             genericSig :=
               { params := n.genericSig.params
                 reqs := n.genericSig.reqs ++ n.genericSig.params.map
                   (fun p => { kind := RequirementKind.conformance
                               subject := p
                               constraintProto := "Copyable" }) }
             extendedNominal := some n.id }]
        topLevelSynth := st.topLevelSynth ++ [st.nextId]
        diags := st.diags
        nextId := st.nextId + 2 } := by
  simp [deriveConformanceForInvertible, getInvertibleProtocolKind,
    generateConditionalConformance, generateConformance, buildGenericSignature,
    getProtocolName, hpos, hinv, hfile]

/-- C3 witness: deriving on the inferred-inverse demo struct from the
initial state yields the conditional conformance `c1Conf` declared in the
extension `c1Ext`, registered top-level, as recorded in `c1State`. -/
theorem derive_inferredInverse_conditional_witness :
    deriveConformanceForInvertible demoInferredStruct KnownProtocolKind.Copyable
      initialDeriveState = .ok (some c1Conf) c1State := by
  have h := derive_inferredInverse_conditional demoInferredStruct initialDeriveState
    (by decide) (by decide) (by decide)
  rw [h]
  decide

/-- C9 witness: with the demo world resolving declaration 9 to a located
nominal with no inverse marking, the tracer is fatal. -/
theorem tracer_inverseNone_fatal_witness :
    tryEmitContainmentFixits demoWorldWithMember demoInferredStruct (Ty.nominalTy 9)
      KnownProtocolKind.Copyable
      = .fatal [Diag.addInverse demoInferredStruct.id
          (getProtocolName KnownProtocolKind.Copyable)
          (addConformanceFixIt demoInferredStruct KnownProtocolKind.Copyable true)] :=
  tracer_inverseNone_fatal demoWorldWithMember demoInferredStruct 9 demoMemberDecl 30
    (by decide) (by decide) (by decide)

end Invertible
